import Mathlib

/-!
Shallow embedding of the scan/dedup/cache core of the `shelf` repository
(src/utils.rs, src/pdf.rs, and the scan thread of src/ui/window.rs).

Modelling conventions:
* File contents are `List Nat` (byte values); a path is a `String`.
* The filesystem is a function `String → Option (List Nat)`: `none` means
  `File::open` (or a read) fails with an I/O error for that path.
* The blake3 hash function is an abstract parameter `h : List Nat → String`
  carried in the environment: the development proves which bytes are fed to
  it and in which order, never anything about the digest itself.
* The mupdf document library is a function `String → Option Document`:
  `none` means `Document::open` returns `Err`.  The chain
  `load_page(0)? / to_pixmap(..)? / RgbImage::from_raw(..).context(..)? /
  image.save(..)?` of the cover block is collapsed into one Boolean
  `render_ok`; its collapsed error message is the string "render".
* `.unwrap()` on a failed operation is modelled as a distinct `panic`
  outcome, which propagates: a panicking rayon task aborts the enclosing
  `collect` and the spawned scan thread.
* The SQLite table `pdf_metadata` is a `List DbRow` (row order = the
  unspecified result order of `SELECT`); `INSERT OR REPLACE` keyed by the
  primary key `hash` removes every row with the same `hash` and prepends
  the fresh row with `last_seen := now`.
-/

deriving instance DecidableEq for Except

/-- `u64::to_le_bytes`: the 8-byte little-endian encoding of a file size. -/
def u64_le_bytes (n : Nat) : List Nat :=
  (List.range 8).map (fun i => n / 256 ^ i % 256)

/-- src/utils.rs `compute_partial_hash`: open the file, hash the 8-byte
little-endian size, then the first 64KB read, then — only when the size
exceeds 65536 — the 64KB read after `seek(SeekFrom::End(-65536))`.
A `read` of a regular file returns the up-to-65536 bytes at the cursor
(cursor 0 after `open`; cursor `size - 65536` after the seek); the hasher
state is the list of bytes fed so far and `finalize` applies `h`. -/
def compute_partial_hash (h : List Nat → String) (fs : String → Option (List Nat))
    (path : String) : Except String (String × Nat) :=
  match fs path with
  | none => .error "open failed"
  | some data =>
    let file_size := data.length
    let buf1 := (data.drop 0).take 65536
    let hasher := ([] : List Nat) ++ u64_le_bytes file_size ++ buf1
    if 65536 < file_size then
      let buf2 := (data.drop (file_size - 65536)).take 65536
      .ok (h (hasher ++ buf2), file_size)
    else
      .ok (h hasher, file_size)

/-- src/utils.rs `compute_full_hash`: the 64KB chunk loop feeds exactly the
whole file content to the hasher, in order. -/
def compute_full_hash (h : List Nat → String) (fs : String → Option (List Nat))
    (path : String) : Except String String :=
  match fs path with
  | none => .error "open failed"
  | some data => .ok (h data)

/-- The hash input the specification prescribes for the partial fingerprint:
8-byte little-endian size, then the first 65536 bytes (all bytes when the
file is shorter), then the last 65536 bytes only when the size strictly
exceeds 65536. -/
def partial_hash_input_spec (data : List Nat) : List Nat :=
  u64_le_bytes data.length ++ data.take 65536 ++
    (if 65536 < data.length then data.drop (data.length - 65536) else [])

/-- src/pdf.rs `PdfMetadata`: the logical record (without `last_seen`). -/
structure PdfMetadata where
  hash : String
  partial_hash : String
  path : String
  title : Option String
  author : Option String
  subject : Option String
  keywords : Option String
  creator : Option String
  producer : Option String
  creation_date : Option String
  modification_date : Option String
  page_count : Nat
  cover_path : Option String
  file_size : Nat
deriving DecidableEq

/-- src/pdf.rs `ScanProgress`: the progress-channel event kinds.
`Duration` is modelled as a `Nat`. -/
inductive ScanProgress where
  | Found (path : String)
  | Processing (path : String)
  | Extracted (hash : String) (metadata : PdfMetadata)
  | DuplicateDetected (original : String) (duplicate : String)
  | Error (path : String) (message : String)
  | Complete (list : List PdfMetadata) (duration : Nat)
deriving DecidableEq

/-- One row of the `pdf_metadata` SQLite table: the logical record plus the
store-only `last_seen` column. -/
structure DbRow where
  md : PdfMetadata
  last_seen : Nat
deriving DecidableEq

/-- src/pdf.rs `PdfCache::get_by_partial_hash`:
`SELECT * FROM pdf_metadata WHERE partial_hash = ?1 AND file_size = ?2`. -/
def get_by_partial_hash (db : List DbRow) (ph : String) (sz : Nat) : List PdfMetadata :=
  (db.filter (fun r => r.md.partial_hash == ph && r.md.file_size == sz)).map (fun r => r.md)

/-- src/pdf.rs `PdfCache::get_metadata`:
`SELECT * FROM pdf_metadata WHERE hash = ?1`, `None` on no row. -/
def get_metadata (db : List DbRow) (hash : String) : Option PdfMetadata :=
  (db.find? (fun r => r.md.hash == hash)).map (fun r => r.md)

/-- src/pdf.rs `PdfCache::store_metadata`: `INSERT OR REPLACE` keyed by the
primary key `hash`, writing `last_seen := now`. -/
def store_metadata (db : List DbRow) (m : PdfMetadata) (now : Nat) : List DbRow :=
  ⟨m, now⟩ :: db.filter (fun r => !(r.md.hash == m.hash))

/-- The mupdf document as the core sees it: page count, the eight optional
document-property strings (each is `document.metadata(..).ok()`), and one
Boolean collapsing the load/render/convert/save chain of the cover block. -/
structure Document where
  page_count : Nat
  title : Option String
  author : Option String
  subject : Option String
  keywords : Option String
  creator : Option String
  producer : Option String
  creation_date : Option String
  modification_date : Option String
  render_ok : Bool

/-- The ambient world of one scan: readable file bytes, `Document::open`
results, and the blake3 hash function. -/
structure Env where
  fs : String → Option (List Nat)
  docs : String → Option Document
  h : List Nat → String

/-- Outcome of `extract_pdf_metadata`: a returned record, an `Err`, or a
panic from an `.unwrap()`.  Each outcome carries the table after the call
and the events the call sent on the channel, in order. -/
inductive ExtractOutcome where
  | ok (md : PdfMetadata) (db : List DbRow) (events : List ScanProgress)
  | err (msg : String) (db : List DbRow) (events : List ScanProgress)
  | panic (db : List DbRow) (events : List ScanProgress)
deriving DecidableEq

/-- The table after the call. -/
def ExtractOutcome.db : ExtractOutcome → List DbRow
  | .ok _ d _ => d
  | .err _ d _ => d
  | .panic d _ => d

/-- The events the call sent, in order. -/
def ExtractOutcome.events : ExtractOutcome → List ScanProgress
  | .ok _ _ e => e
  | .err _ _ e => e
  | .panic _ e => e

/-- Whether the call returned a record. -/
def ExtractOutcome.isOk : ExtractOutcome → Bool
  | .ok _ _ _ => true
  | _ => false

/-- src/pdf.rs `extract_pdf_metadata`, steps 4-6 (the cache-miss path):
`Document::open(path).unwrap()` (a panic when the library fails to open the
file), read page count and the eight properties, compute the full hash,
render the cover when `page_count > 0` (any failure in the render/save
chain propagates via `?`), assemble the record, store it, return it. -/
def full_extraction (env : Env) (db : List DbRow) (now : Nat)
    (path partial_hash : String) (file_size : Nat) : ExtractOutcome :=
  match env.docs path with
  | none => .panic db []
  | some document =>
    match compute_full_hash env.h env.fs path with
    | .error e => .err e db []
    | .ok full_hash =>
      let cover : Except String (Option String) :=
        if 0 < document.page_count then
          if document.render_ok then .ok (some (full_hash.take 16 ++ ".jpg"))
          else .error "render"
        else .ok none
      match cover with
      | .error e => .err e db []
      | .ok cover_path =>
        let metadata : PdfMetadata :=
          { hash := full_hash
            partial_hash := partial_hash
            path := path
            title := document.title
            author := document.author
            subject := document.subject
            keywords := document.keywords
            creator := document.creator
            producer := document.producer
            creation_date := document.creation_date
            modification_date := document.modification_date
            page_count := document.page_count
            cover_path := cover_path
            file_size := file_size }
        .ok metadata (store_metadata db metadata now) []

/-- src/pdf.rs `extract_pdf_metadata`: partial hash, store lookup by
(partial hash, size); an empty candidate list falls to full extraction; a
single candidate is returned as-is; several candidates trigger the full
hash, the first candidate with that hash has its `path` updated, is
re-upserted and returned (with a `DuplicateDetected` event when the stored
path differs); no candidate with that hash falls to full extraction. -/
def extract_pdf_metadata (env : Env) (db : List DbRow) (now : Nat)
    (path : String) : ExtractOutcome :=
  match compute_partial_hash env.h env.fs path with
  | .error e => .err e db []
  | .ok (partial_hash, file_size) =>
    let cached_matches := get_by_partial_hash db partial_hash file_size
    match cached_matches with
    | [] => full_extraction env db now path partial_hash file_size
    | [first_hit] => .ok first_hit db []
    | _ :: _ :: _ =>
      match compute_full_hash env.h env.fs path with
      | .error e => .err e db []
      | .ok full_hash =>
        match cached_matches.find? (fun cached => cached.hash == full_hash) with
        | some cached =>
          let events :=
            if cached.path = path then []
            else [ScanProgress.DuplicateDetected cached.path path]
          let updated := { cached with path := path }
          .ok updated (store_metadata db updated now) events
        | none => full_extraction env db now path partial_hash file_size

/-- A filesystem subtree as `read_dir` sees it.  `file` carries the entry's
path and whether the `.pdf` extension test (case-insensitive, on a regular
file) passes; `dir` is a readable directory with its entries in iteration
order; `badDir` is a directory for which `read_dir` returns `Err`
(permissions, race with deletion). -/
inductive DirTree where
  | file (path : String) (is_pdf : Bool)
  | dir (path : String) (entries : List DirTree)
  | badDir (path : String)

/-- The entry loop of `scan_pdfs_rayon`: the paths of the entries that are
regular files passing the `.pdf` extension test, in order. -/
def direct_pdfs (entries : List DirTree) : List String :=
  entries.filterMap (fun e =>
    match e with
    | .file p true => some p
    | _ => none)

mutual

/-- src/utils.rs `scan_pdfs_rayon`: `read_dir(&dir).unwrap()` (`none` = the
panic on an unreadable directory), push each matching file and send a
`Found` event, then recurse into every subdirectory via the parallel
`flat_map` (whose `collect` preserves order and propagates any panic). -/
def scan_pdfs_rayon : DirTree → Option (List String × List ScanProgress)
  | .badDir _ => none
  | .file _ _ => some ([], [])
  | .dir _ entries =>
    match scan_subdirs entries with
    | none => none
    | some (subPdfs, subEvents) =>
      some (direct_pdfs entries ++ subPdfs,
        (direct_pdfs entries).map ScanProgress.Found ++ subEvents)

/-- The parallel recursion over the subdirectory entries of one directory:
concatenates the recursive results in entry order; a panic in any branch
propagates. -/
def scan_subdirs : List DirTree → Option (List String × List ScanProgress)
  | [] => some ([], [])
  | e :: rest =>
    match e with
    | .file _ _ => scan_subdirs rest
    | .dir p es =>
      match scan_pdfs_rayon (.dir p es), scan_subdirs rest with
      | some (ps, evs), some (ps2, evs2) => some (ps ++ ps2, evs ++ evs2)
      | _, _ => none
    | .badDir p =>
      match scan_pdfs_rayon (.badDir p), scan_subdirs rest with
      | some (ps, evs), some (ps2, evs2) => some (ps ++ ps2, evs ++ evs2)
      | _, _ => none

end

/-- The loop over `config.scan_dirs` in the refresh handler: scan each root
and extend the path list; a panic in any root's scan kills the thread. -/
def scan_roots : List DirTree → Option (List String × List ScanProgress)
  | [] => some ([], [])
  | r :: rs =>
    match scan_pdfs_rayon r, scan_roots rs with
    | some (ps, evs), some (ps2, evs2) => some (ps ++ ps2, evs ++ evs2)
    | _, _ => none

/-- Insertion step of the sort, ordered by the string order of paths. -/
def insert_sorted (x : String) : List String → List String
  | [] => [x]
  | y :: ys => if x < y then x :: y :: ys else y :: insert_sorted x ys

/-- `pdf_paths.sort_unstable()`: deterministic ascending sort by path. -/
def sort_paths (l : List String) : List String := l.foldr insert_sorted []

/-- The parallel extraction fan-out (`pdf_paths.par_iter().filter_map(..)`)
in a canonical serialization: for each path send `Processing`, run
`extract_pdf_metadata` threading the shared store, collect the record on
`Ok`, send an `Error` event and drop the path on `Err`; a panic aborts the
whole `collect` (`none`). -/
def process_paths (env : Env) (now : Nat) :
    List DbRow → List String → Option (List DbRow × List PdfMetadata × List ScanProgress)
  | db, [] => some (db, [], [])
  | db, p :: rest =>
    match extract_pdf_metadata env db now p with
    | .panic _ _ => none
    | .ok md db2 evs =>
      match process_paths env now db2 rest with
      | none => none
      | some (dbf, mds, evs2) =>
        some (dbf, md :: mds, ScanProgress.Processing p :: evs ++ evs2)
    | .err msg db2 evs =>
      match process_paths env now db2 rest with
      | none => none
      | some (dbf, mds, evs2) =>
        some (dbf, mds,
          ScanProgress.Processing p ::
            evs ++ [ScanProgress.Error p ("Extraction failed: " ++ msg)] ++ evs2)

/-- What the spawned scan thread of the refresh handler did: either it ran
to completion having sent this event sequence, or it panicked. -/
inductive ProducerOutcome where
  | finished (events : List ScanProgress)
  | panicked
deriving DecidableEq

/-- The spawned scan thread of `setup_buttons` (src/ui/window.rs): when
`PdfCache::new()` fails, send one `Error` and return; otherwise scan all
configured roots, sort the collected paths, fan out to the extraction
pipeline, and finally send one `Complete` with the collected list and the
elapsed duration.  `cacheInit` is the result of `PdfCache::new()` together
with the persisted table it opens. -/
def run_scan (env : Env) (cacheInit : Except String (List DbRow))
    (roots : List DirTree) (now dur : Nat) : ProducerOutcome :=
  match cacheInit with
  | .error e =>
    .finished [ScanProgress.Error "cache" ("Failed to initialize cache: " ++ e)]
  | .ok db0 =>
    match scan_roots roots with
    | none => .panicked
    | some (paths, scanEvents) =>
      match process_paths env now db0 (sort_paths paths) with
      | none => .panicked
      | some (_, mds, procEvents) =>
        .finished (scanEvents ++ procEvents ++ [ScanProgress.Complete mds dur])

/-- Whether an event is the terminal `Complete`. -/
def isComplete : ScanProgress → Bool
  | .Complete _ _ => true
  | _ => false

/-- A concrete stand-in digest function for witnesses: the length of the
hash input, in decimal. -/
def hLen : List Nat → String := fun l => toString l.length

/-- Witness world: every path opens as the two-byte file `[1, 2]`; the
document library fails on every path (it is never reached on cache hits). -/
def envW : Env := { fs := fun _ => some [1, 2], docs := fun _ => none, h := hLen }

/-- Witness record previously stored for partial hash "10" and size 2; its
`hash` is not the content hash of `[1, 2]` and its `path` is stale. -/
def mW : PdfMetadata :=
  { hash := "deadbeef", partial_hash := "10", path := "old.pdf", title := none,
    author := none, subject := none, keywords := none, creator := none,
    producer := none, creation_date := none, modification_date := none,
    page_count := 3, cover_path := none, file_size := 2 }

/-- Witness table holding exactly the one record `mW`. -/
def dbW : List DbRow := [⟨mW, 42⟩]

/-- Witness candidate whose stored hash does not match the full hash. -/
def m4a : PdfMetadata := { mW with hash := "9", path := "a.pdf" }

/-- Witness candidate whose stored hash equals the full hash of `[1, 2]`
under `hLen` (the digest "2"), stored under a stale path. -/
def m4b : PdfMetadata := { mW with hash := "2", path := "old.pdf" }

/-- Witness table with two candidates for partial hash "10" and size 2. -/
def db4 : List DbRow := [⟨m4a, 1⟩, ⟨m4b, 2⟩]

/-- World for the render-failure run: a three-byte file everywhere, and a
one-page document whose render/save chain fails. -/
def env3 : Env :=
  { fs := fun _ => some [1, 2, 3],
    docs := fun _ => some
      { page_count := 1, title := none, author := none, subject := none,
        keywords := none, creator := none, producer := none,
        creation_date := none, modification_date := none, render_ok := false },
    h := hLen }

/-- World for the corrupt-document run: every file reads as `[7]` but the
document library fails to open every path. -/
def env2 : Env := { fs := fun _ => some [7], docs := fun _ => none, h := hLen }

/-- A readable subtree holding one PDF. -/
def goodSub : DirTree := .dir "/r/good" [.file "/r/good/a.pdf" true]

/-- A scan root with a readable subtree and an unreadable sibling. -/
def scanRoot7 : DirTree := .dir "/r" [goodSub, .badDir "/r/bad"]

/-- An inert world: nothing opens.  Used for runs that touch no file. -/
def envIdle : Env := { fs := fun _ => none, docs := fun _ => none, h := hLen }

/-- Witness filesystem: every path is a two-byte file. -/
def fs5 : String → Option (List Nat) := fun _ => some [5, 6]

/-- Witness filesystem: every path is a zero-byte file. -/
def fs9 : String → Option (List Nat) := fun _ => some []

/-- Invariant of scanner results: whenever the scan did not panic, its
event stream is exactly one `Found` per collected path, in order. -/
def optEventsFound : Option (List String × List ScanProgress) → Prop
  | none => True
  | some (ps, evs) => evs = ps.map ScanProgress.Found

/-- A successful `compute_partial_hash` pins down openable file content. -/
theorem compute_partial_hash_ok_fs {h : List Nat → String}
    {fs : String → Option (List Nat)} {path ph : String} {sz : Nat}
    (hok : compute_partial_hash h fs path = .ok (ph, sz)) :
    ∃ data, fs path = some data := by
  unfold compute_partial_hash at hok
  cases hfs : fs path with
  | none => rw [hfs] at hok; exact absurd hok (by simp)
  | some data => exact ⟨data, rfl⟩

/-- C5: for every readable file, the partial fingerprint is the digest of
the 8-byte little-endian size, then the first 65536 bytes (all bytes when
the file is shorter), then — only when the size strictly exceeds 65536 —
the last 65536 bytes; and the returned size is the file's byte length. -/
theorem partial_hash_matches_spec (h : List Nat → String)
    (fs : String → Option (List Nat)) (path : String) (data : List Nat)
    (hfs : fs path = some data) :
    compute_partial_hash h fs path = .ok (h (partial_hash_input_spec data), data.length) := by
  unfold compute_partial_hash
  rw [hfs]
  by_cases hlen : 65536 < data.length
  · show (if 65536 < data.length then _ else _) = _
    rw [if_pos hlen]
    have htail : ((data.drop (data.length - 65536)).take 65536) = data.drop (data.length - 65536) := by
      apply List.take_of_length_le
      simp [List.length_drop]
      omega
    show Except.ok (h (([] : List Nat) ++ u64_le_bytes data.length ++ ((data.drop 0).take 65536) ++ ((data.drop (data.length - 65536)).take 65536)), data.length) = _
    rw [htail]
    unfold partial_hash_input_spec
    rw [if_pos hlen]
    simp
  · show (if 65536 < data.length then _ else _) = _
    rw [if_neg hlen]
    show Except.ok (h (([] : List Nat) ++ u64_le_bytes data.length ++ ((data.drop 0).take 65536)), data.length) = _
    unfold partial_hash_input_spec
    rw [if_neg hlen]
    simp

/-- C5 witness: on the concrete two-byte file `[5, 6]`, the fingerprint is
the digest of the 10-byte spec input and the returned size is 2. -/
theorem partial_hash_matches_spec_witness :
    compute_partial_hash hLen fs5 "x.pdf" = .ok ("10", 2) := by
  rw [partial_hash_matches_spec hLen fs5 "x.pdf" [5, 6] rfl]
  decide

/-- C9: a zero-byte file that opens yields a fingerprint of the 8-byte
encoding of size 0 followed by an empty first window, with no tail window,
and the returned size is 0; no error occurs. -/
theorem zero_byte_partial_hash (h : List Nat → String)
    (fs : String → Option (List Nat)) (path : String)
    (hfs : fs path = some []) :
    compute_partial_hash h fs path = .ok (h (u64_le_bytes 0), 0) := by
  unfold compute_partial_hash
  rw [hfs]
  rfl

/-- C9 witness: on a concrete zero-byte file the call returns the digest of
the 8 size bytes and size 0. -/
theorem zero_byte_partial_hash_witness :
    compute_partial_hash hLen fs9 "z.pdf" = .ok ("8", 0) := by
  rw [zero_byte_partial_hash hLen fs9 "z.pdf" rfl]
  decide

/-- C6: upsert followed by lookup-by-hash returns exactly the upserted
logical record (every field); `last_seen` is not part of the returned
record. -/
theorem store_lookup_roundtrip (db : List DbRow) (m : PdfMetadata) (now : Nat) :
    get_metadata (store_metadata db m now) m.hash = some m := by
  unfold get_metadata store_metadata
  rw [List.find?_cons_of_pos _ (by simp)]
  rfl

/-- Shared argument: with exactly one candidate for (partial hash, size),
the pipeline returns that candidate as-is with no event and no table
change, whatever the document library or the file content would yield. -/
theorem extract_single_match (env : Env) (db : List DbRow) (now : Nat)
    (path ph : String) (sz : Nat) (m : PdfMetadata)
    (hph : compute_partial_hash env.h env.fs path = .ok (ph, sz))
    (hm : get_by_partial_hash db ph sz = [m]) :
    extract_pdf_metadata env db now path = .ok m db [] := by
  unfold extract_pdf_metadata
  rw [hph]
  simp only []
  rw [hm]

/-- C1: when the partial-fingerprint-and-size lookup returns exactly one
candidate, extract returns that record as-is — no full hash is needed (the
conclusion holds for every `env.docs` and every digest of the content), no
path verification or update happens, and no duplicate event is emitted. -/
theorem single_match_fast_path (env : Env) (db : List DbRow) (now : Nat)
    (path ph : String) (sz : Nat) (m : PdfMetadata)
    (hph : compute_partial_hash env.h env.fs path = .ok (ph, sz))
    (hm : get_by_partial_hash db ph sz = [m]) :
    extract_pdf_metadata env db now path = .ok m db [] :=
  extract_single_match env db now path ph sz m hph hm

/-- C1 witness: in `envW`/`dbW` the stored record (stale path "old.pdf",
hash "deadbeef" unrelated to the content digest "2", document library
failing on every path) is returned unchanged with no events. -/
theorem single_match_fast_path_witness :
    extract_pdf_metadata envW dbW 7 "new.pdf" = .ok mW dbW [] :=
  single_match_fast_path envW dbW 7 "new.pdf" "10" 2 mW (by decide) (by decide)

/-- C10: on the single-candidate fast path no store write occurs — the
table (rows and their `last_seen` timestamps) after the call is the input
table — and the returned record is the stored one, so its `path` field is
the previously stored path, not necessarily the path argument. -/
theorem fast_path_no_store_write (env : Env) (db : List DbRow) (now : Nat)
    (path ph : String) (sz : Nat) (m : PdfMetadata)
    (hph : compute_partial_hash env.h env.fs path = .ok (ph, sz))
    (hm : get_by_partial_hash db ph sz = [m]) :
    (extract_pdf_metadata env db now path).db = db ∧
      extract_pdf_metadata env db now path = .ok m db [] := by
  have heq := extract_single_match env db now path ph sz m hph hm
  exact ⟨by rw [heq]; rfl, heq⟩

/-- C10 witness: concrete fast-path call leaving `dbW` (with its stored
`last_seen` 42) untouched and returning the stale stored path. -/
theorem fast_path_no_store_write_witness :
    ((extract_pdf_metadata envW dbW 7 "new.pdf").db = dbW ∧
      extract_pdf_metadata envW dbW 7 "new.pdf" = .ok mW dbW []) ∧
      ¬ mW.path = "new.pdf" :=
  ⟨fast_path_no_store_write envW dbW 7 "new.pdf" "10" 2 mW (by decide) (by decide),
    by decide⟩

/-- C4: with several candidates, when the candidate found with the freshly
computed full hash is stored under a different path, a `DuplicateDetected`
(stored path, current path) event is emitted, the record's `path` is
updated, the updated record is re-upserted, and it is returned with every
other field unchanged. -/
theorem multi_match_updates_path (env : Env) (db : List DbRow) (now : Nat)
    (path ph fh : String) (sz : Nat) (a b : PdfMetadata) (l : List PdfMetadata)
    (c : PdfMetadata)
    (hph : compute_partial_hash env.h env.fs path = .ok (ph, sz))
    (hm : get_by_partial_hash db ph sz = a :: b :: l)
    (hfh : compute_full_hash env.h env.fs path = .ok fh)
    (hfind : (a :: b :: l).find? (fun cached => cached.hash == fh) = some c)
    (hpath : ¬ c.path = path) :
    extract_pdf_metadata env db now path =
      .ok { c with path := path } (store_metadata db { c with path := path } now)
        [ScanProgress.DuplicateDetected c.path path] := by
  unfold extract_pdf_metadata
  rw [hph]
  simp only []
  rw [hm]
  simp only []
  rw [hfh]
  simp only []
  rw [hfind]
  simp only []
  rw [if_neg hpath]

/-- C4 witness: two candidates for partial hash "10" and size 2; the
second one's hash "2" equals the content digest; its path moves from
"old.pdf" to "new.pdf", the updated record is stored and returned, and the
duplicate event carries (old, new). -/
theorem multi_match_updates_path_witness :
    extract_pdf_metadata envW db4 7 "new.pdf" =
      .ok { m4b with path := "new.pdf" }
        (store_metadata db4 { m4b with path := "new.pdf" } 7)
        [ScanProgress.DuplicateDetected "old.pdf" "new.pdf"] :=
  multi_match_updates_path envW db4 7 "new.pdf" "10" "2" 2 m4a m4b [] m4b
    (by decide) (by decide) (by decide) (by decide) (by decide)

/-- C3 counterexample: in `env3` (one-page document, failing render/save
chain, empty cache), extract fails the whole record with the render error
rather than returning a record with `cover_path` absent. -/
theorem render_failure_claim_cex :
    extract_pdf_metadata env3 [] 0 "a.pdf" = .err "render" [] [] ∧
      (extract_pdf_metadata env3 [] 0 "a.pdf").isOk = false := by decide

/-- C3 as amended: on a full extraction (cache miss) of a document with
page count > 0, a failure in the cover render/save chain makes extract
return an error for the whole record, leaving the table unchanged, instead
of returning a record without a cover. -/
theorem render_failure_fails_record (env : Env) (db : List DbRow) (now : Nat)
    (path ph : String) (sz : Nat) (doc : Document)
    (hph : compute_partial_hash env.h env.fs path = .ok (ph, sz))
    (hm : get_by_partial_hash db ph sz = [])
    (hdoc : env.docs path = some doc)
    (hpc : 0 < doc.page_count)
    (hrender : doc.render_ok = false) :
    extract_pdf_metadata env db now path = .err "render" db [] := by
  obtain ⟨data, hdata⟩ := compute_partial_hash_ok_fs hph
  unfold extract_pdf_metadata
  rw [hph]
  simp only []
  rw [hm]
  unfold full_extraction
  rw [hdoc]
  simp only []
  unfold compute_full_hash
  rw [hdata]
  simp only []
  rw [if_pos hpc, hrender]
  rw [if_neg (by simp)]

/-- C3 witness: the amended statement applied to the concrete failing
render of `env3`. -/
theorem render_failure_fails_record_witness :
    extract_pdf_metadata env3 [] 0 "a.pdf" = .err "render" [] [] :=
  render_failure_fails_record env3 [] 0 "a.pdf" "11" 3
    { page_count := 1, title := none, author := none, subject := none,
      keywords := none, creator := none, producer := none,
      creation_date := none, modification_date := none, render_ok := false }
    (by decide) (by decide) rfl (by decide) rfl

/-- C2: on a file the document library cannot open (`Document::open`
returns `Err`), `extract_pdf_metadata` hits `.unwrap()` and panics instead
of returning an `Err`: the caller's per-file `Error`-event handler never
runs, the parallel `collect` over the batch aborts, and the scan thread
dies without completing — the batch is aborted, no `Error` event and no
`Complete` event are sent for it. -/
theorem corrupt_open_panics_batch :
    extract_pdf_metadata env2 [] 0 "corrupt.pdf" = .panic [] [] ∧
      process_paths env2 0 [] ["corrupt.pdf"] = none ∧
      run_scan env2 (.ok []) [DirTree.dir "r" [DirTree.file "corrupt.pdf" true]] 0 0 =
        ProducerOutcome.panicked := by decide

/-- C7: `read_dir(&dir).unwrap()` panics on an unreadable directory and the
panic propagates through the parallel walk: scanning a root with a
readable subtree (holding one PDF) and an unreadable sibling returns
nothing at all, although the readable subtree alone scans fine — the whole
enclosing scan is aborted, not just the unreadable subtree. -/
theorem unreadable_dir_aborts_scan :
    scan_pdfs_rayon scanRoot7 = none ∧
      scan_pdfs_rayon goodSub =
        some (["/r/good/a.pdf"], [ScanProgress.Found "/r/good/a.pdf"]) := by decide

mutual

/-- The scanner's events are exactly one `Found` per collected path. -/
theorem scan_events_found (t : DirTree) : optEventsFound (scan_pdfs_rayon t) := by
  match t with
  | .badDir p => exact trivial
  | .file p b => exact rfl
  | .dir p entries =>
    have ih := scan_subdirs_events_found entries
    show optEventsFound
      (match scan_subdirs entries with
       | none => none
       | some (subPdfs, subEvents) =>
         some (direct_pdfs entries ++ subPdfs,
           (direct_pdfs entries).map ScanProgress.Found ++ subEvents))
    cases hs : scan_subdirs entries with
    | none => exact trivial
    | some pr =>
      obtain ⟨sp, se⟩ := pr
      rw [hs] at ih
      have hse : se = sp.map ScanProgress.Found := ih
      show (direct_pdfs entries).map ScanProgress.Found ++ se =
        (direct_pdfs entries ++ sp).map ScanProgress.Found
      rw [hse, List.map_append]

/-- The subdirectory fan-out's events are one `Found` per collected path. -/
theorem scan_subdirs_events_found (l : List DirTree) : optEventsFound (scan_subdirs l) := by
  match l with
  | [] => exact rfl
  | .file p b :: rest => exact scan_subdirs_events_found rest
  | .dir p es :: rest =>
    have ih1 := scan_events_found (.dir p es)
    have ih2 := scan_subdirs_events_found rest
    show optEventsFound
      (match scan_pdfs_rayon (.dir p es), scan_subdirs rest with
       | some (ps, evs), some (ps2, evs2) => some (ps ++ ps2, evs ++ evs2)
       | _, _ => none)
    cases h1 : scan_pdfs_rayon (.dir p es) with
    | none => exact trivial
    | some pr1 =>
      obtain ⟨ps1, evs1⟩ := pr1
      cases h2 : scan_subdirs rest with
      | none => exact trivial
      | some pr2 =>
        obtain ⟨ps2, evs2⟩ := pr2
        rw [h1] at ih1
        rw [h2] at ih2
        have he1 : evs1 = ps1.map ScanProgress.Found := ih1
        have he2 : evs2 = ps2.map ScanProgress.Found := ih2
        show evs1 ++ evs2 = (ps1 ++ ps2).map ScanProgress.Found
        rw [he1, he2, List.map_append]
  | .badDir p :: rest => exact trivial

end

/-- Scanning all configured roots emits one `Found` per collected path. -/
theorem scan_roots_events_found (roots : List DirTree) : optEventsFound (scan_roots roots) := by
  induction roots with
  | nil => exact rfl
  | cons r rs ih =>
    have h1 := scan_events_found r
    show optEventsFound
      (match scan_pdfs_rayon r, scan_roots rs with
       | some (ps, evs), some (ps2, evs2) => some (ps ++ ps2, evs ++ evs2)
       | _, _ => none)
    cases hr : scan_pdfs_rayon r with
    | none => exact trivial
    | some pr1 =>
      obtain ⟨ps1, evs1⟩ := pr1
      cases hs : scan_roots rs with
      | none => exact trivial
      | some pr2 =>
        obtain ⟨ps2, evs2⟩ := pr2
        rw [hr] at h1
        rw [hs] at ih
        have he1 : evs1 = ps1.map ScanProgress.Found := h1
        have he2 : evs2 = ps2.map ScanProgress.Found := ih
        show evs1 ++ evs2 = (ps1 ++ ps2).map ScanProgress.Found
        rw [he1, he2, List.map_append]

/-- `Found` events are never the terminal `Complete`. -/
theorem filter_complete_found (ps : List String) :
    (ps.map ScanProgress.Found).filter isComplete = [] := by
  induction ps with
  | nil => rfl
  | cons p rest ih => simp [List.filter, isComplete, ih]

/-- A full extraction sends no event at all on the channel. -/
theorem full_extraction_events (env : Env) (db : List DbRow) (now : Nat)
    (path ph : String) (sz : Nat) :
    (full_extraction env db now path ph sz).events = [] := by
  unfold full_extraction
  split
  · rfl
  · split
    · rfl
    · split
      · split
        · rfl
        · rfl
      · rfl

/-- `extract_pdf_metadata` never sends a `Complete` event. -/
theorem extract_events_no_complete (env : Env) (db : List DbRow) (now : Nat) (path : String) :
    ((extract_pdf_metadata env db now path).events).filter isComplete = [] := by
  unfold extract_pdf_metadata
  cases compute_partial_hash env.h env.fs path with
  | error e => rfl
  | ok pr =>
    obtain ⟨ph, sz⟩ := pr
    simp only []
    cases get_by_partial_hash db ph sz with
    | nil =>
      rw [full_extraction_events]
      rfl
    | cons a t =>
      cases t with
      | nil => rfl
      | cons b t2 =>
        cases compute_full_hash env.h env.fs path with
        | error e => rfl
        | ok fh =>
          simp only []
          cases (a :: b :: t2).find? (fun cached => cached.hash == fh) with
          | none =>
            rw [full_extraction_events]
            rfl
          | some c =>
            simp only []
            by_cases hc : c.path = path
            · rw [if_pos hc]
              rfl
            · rw [if_neg hc]
              rfl

/-- The extraction fan-out never sends a `Complete` event. -/
theorem process_paths_no_complete (env : Env) (now : Nat) :
    ∀ (paths : List String) (db dbf : List DbRow) (mds : List PdfMetadata)
      (evs : List ScanProgress),
      process_paths env now db paths = some (dbf, mds, evs) → evs.filter isComplete = [] := by
  intro paths
  induction paths with
  | nil =>
    intro db dbf mds evs h
    unfold process_paths at h
    simp only [Option.some.injEq, Prod.mk.injEq] at h
    rw [← h.2.2]
    rfl
  | cons p rest ih =>
    intro db dbf mds evs h
    unfold process_paths at h
    cases heq : extract_pdf_metadata env db now p with
    | panic d e => rw [heq] at h; exact absurd h (by simp)
    | ok md db2 evsX =>
      rw [heq] at h
      simp only [] at h
      cases hrec : process_paths env now db2 rest with
      | none => rw [hrec] at h; exact absurd h (by simp)
      | some tr =>
        obtain ⟨dbf2, mds2, evs2⟩ := tr
        rw [hrec] at h
        simp only [Option.some.injEq, Prod.mk.injEq] at h
        rw [← h.2.2]
        have hx : evsX.filter isComplete = [] := by
          have hev := extract_events_no_complete env db now p
          rw [heq] at hev
          exact hev
        have h2 := ih db2 dbf2 mds2 evs2 hrec
        simp [List.filter_cons, List.filter_append, isComplete, hx, h2]
    | err msg db2 evsX =>
      rw [heq] at h
      simp only [] at h
      cases hrec : process_paths env now db2 rest with
      | none => rw [hrec] at h; exact absurd h (by simp)
      | some tr =>
        obtain ⟨dbf2, mds2, evs2⟩ := tr
        rw [hrec] at h
        simp only [Option.some.injEq, Prod.mk.injEq] at h
        rw [← h.2.2]
        have hx : evsX.filter isComplete = [] := by
          have hev := extract_events_no_complete env db now p
          rw [heq] at hev
          exact hev
        have h2 := ih db2 dbf2 mds2 evs2 hrec
        simp [List.filter_cons, List.filter_append, isComplete, hx, h2]

/-- C8 counterexample: when the cache fails to initialize, the scan thread
sends a single `Error` event and returns — that run enqueues zero
`Complete` events and its last event is not `Complete`. -/
theorem cache_init_failure_skips_complete :
    run_scan envIdle (.error "disk") [] 0 0 =
      .finished [ScanProgress.Error "cache" "Failed to initialize cache: disk"] ∧
      ([ScanProgress.Error "cache" "Failed to initialize cache: disk"].filter
        isComplete).length = 0 := by
  decide

/-- C8 as amended: for every scan in which the cache initializes, the
directory walk does not panic, and no extraction panics, the producer
thread enqueues exactly one `Complete` event — carrying the collected
metadata list and the elapsed duration — and it is the last event it
enqueues. -/
theorem complete_unique_and_last (env : Env) (db0 : List DbRow) (roots : List DirTree)
    (now dur : Nat) (paths : List String) (scanEvents procEvents : List ScanProgress)
    (dbf : List DbRow) (mds : List PdfMetadata)
    (hscan : scan_roots roots = some (paths, scanEvents))
    (hproc : process_paths env now db0 (sort_paths paths) = some (dbf, mds, procEvents)) :
    run_scan env (.ok db0) roots now dur =
      .finished (scanEvents ++ procEvents ++ [ScanProgress.Complete mds dur]) ∧
      (scanEvents ++ procEvents).filter isComplete = [] := by
  constructor
  · unfold run_scan
    rw [hscan]
    simp only []
    rw [hproc]
  · rw [List.filter_append]
    have h1 : scanEvents.filter isComplete = [] := by
      have hfd := scan_roots_events_found roots
      rw [hscan] at hfd
      have he : scanEvents = paths.map ScanProgress.Found := hfd
      rw [he]
      exact filter_complete_found paths
    rw [h1, process_paths_no_complete env now (sort_paths paths) db0 dbf mds procEvents hproc]
    rfl

/-- C8 witness: an empty scan (no roots) over an initialized empty cache
finishes with the single event `Complete [] 5`. -/
theorem complete_unique_and_last_witness :
    run_scan envIdle (.ok []) [] 0 5 =
      .finished ([] ++ [] ++ [ScanProgress.Complete [] 5]) ∧
      (([] : List ScanProgress) ++ []).filter isComplete = [] :=
  complete_unique_and_last envIdle [] [] 0 5 [] [] [] [] [] rfl rfl
